import Mathlib

/-!
Verification of the noby container-image builder (noby.py) against its
natural-language specification.  The Python source is shallowly embedded:
byte strings become lists of naturals, 32-bit machine words become naturals
reduced modulo 2^32, the btrfs volume store becomes an association list from
volume names to entries, and the build orchestrator becomes a pure function
that also returns a trace of the external effects it would perform.
-/

set_option maxRecDepth 100000

namespace Noby

/-! SHA-256 (FIPS 180-4) over byte lists.  Bytes and 32-bit words are
naturals with explicit reduction modulo 256 and 2^32.  This embeds the
hashlib.sha256 primitive used by noby.py. -/

def w32 : Nat := 4294967296

def rotr32 (n x : Nat) : Nat := ((x >>> n) ||| (x <<< (32 - n))) % w32

def chF (x y z : Nat) : Nat := (x &&& y) ^^^ ((x ^^^ (w32 - 1)) &&& z)

def majF (x y z : Nat) : Nat := (x &&& y) ^^^ (x &&& z) ^^^ (y &&& z)

def bsig0 (x : Nat) : Nat := (rotr32 2 x) ^^^ (rotr32 13 x) ^^^ (rotr32 22 x)

def bsig1 (x : Nat) : Nat := (rotr32 6 x) ^^^ (rotr32 11 x) ^^^ (rotr32 25 x)

def ssig0 (x : Nat) : Nat := (rotr32 7 x) ^^^ (rotr32 18 x) ^^^ (x >>> 3)

def ssig1 (x : Nat) : Nat := (rotr32 17 x) ^^^ (rotr32 19 x) ^^^ (x >>> 10)

def K256 : List Nat :=
  [
    1116352408, 1899447441, 3049323471, 3921009573,
    961987163, 1508970993, 2453635748, 2870763221,
    3624381080, 310598401, 607225278, 1426881987,
    1925078388, 2162078206, 2614888103, 3248222580,
    3835390401, 4022224774, 264347078, 604807628,
    770255983, 1249150122, 1555081692, 1996064986,
    2554220882, 2821834349, 2952996808, 3210313671,
    3336571891, 3584528711, 113926993, 338241895,
    666307205, 773529912, 1294757372, 1396182291,
    1695183700, 1986661051, 2177026350, 2456956037,
    2730485921, 2820302411, 3259730800, 3345764771,
    3516065817, 3600352804, 4094571909, 275423344,
    430227734, 506948616, 659060556, 883997877,
    958139571, 1322822218, 1537002063, 1747873779,
    1955562222, 2024104815, 2227730452, 2361852424,
    2428436474, 2756734187, 3204031479, 3329325298
  ]

structure H8 where
  a : Nat
  b : Nat
  c : Nat
  d : Nat
  e : Nat
  f : Nat
  g : Nat
  h : Nat
deriving DecidableEq

def initH : H8 :=
  ⟨1779033703, 3144134277, 1013904242, 2773480762,
   1359893119, 2600822924, 528734635, 1541459225⟩

def bytesToWords : List Nat → List Nat
  | b0 :: b1 :: b2 :: b3 :: rest =>
      ((b0 <<< 24) ||| (b1 <<< 16) ||| (b2 <<< 8) ||| b3) :: bytesToWords rest
  | _ => []

def extendW : Nat → List Nat → List Nat
  | 0, w => w
  | n + 1, w =>
      let L := w.length
      extendW n (w ++ [(ssig1 (w.getD (L - 2) 0) + w.getD (L - 7) 0 +
                        ssig0 (w.getD (L - 15) 0) + w.getD (L - 16) 0) % w32])

def roundStep (st : H8) (kw : Nat × Nat) : H8 :=
  let t1 := (st.h + bsig1 st.e + chF st.e st.f st.g + kw.1 + kw.2) % w32
  let t2 := (bsig0 st.a + majF st.a st.b st.c) % w32
  ⟨(t1 + t2) % w32, st.a, st.b, st.c, (st.d + t1) % w32, st.e, st.f, st.g⟩

def compress (st : H8) (block : List Nat) : H8 :=
  let w := extendW 48 (bytesToWords block)
  let r := List.foldl roundStep st (List.zip K256 w)
  ⟨(st.a + r.a) % w32, (st.b + r.b) % w32, (st.c + r.c) % w32, (st.d + r.d) % w32,
   (st.e + r.e) % w32, (st.f + r.f) % w32, (st.g + r.g) % w32, (st.h + r.h) % w32⟩

def u64be (n : Nat) : List Nat :=
  [(n >>> 56) % 256, (n >>> 48) % 256, (n >>> 40) % 256, (n >>> 32) % 256,
   (n >>> 24) % 256, (n >>> 16) % 256, (n >>> 8) % 256, n % 256]

def padBytes (msg : List Nat) : List Nat :=
  msg ++ 128 :: List.replicate ((64 - (msg.length + 9) % 64) % 64) 0 ++ u64be (msg.length * 8)

def processBlocks : Nat → H8 → List Nat → H8
  | 0, st, _ => st
  | _ + 1, st, [] => st
  | fuel + 1, st, bs => processBlocks fuel (compress st (bs.take 64)) (bs.drop 64)

def u32be (n : Nat) : List Nat :=
  [(n >>> 24) % 256, (n >>> 16) % 256, (n >>> 8) % 256, n % 256]

def stateBytes (st : H8) : List Nat :=
  u32be st.a ++ u32be st.b ++ u32be st.c ++ u32be st.d ++
  u32be st.e ++ u32be st.f ++ u32be st.g ++ u32be st.h

def sha256 (msg : List Nat) : List Nat :=
  let p := padBytes msg
  stateBytes (processBlocks (p.length / 64 + 1) initH p)

def hexChar (n : Nat) : Char :=
  if n < 10 then Char.ofNat (48 + n) else Char.ofNat (87 + n)

def bytesToHex (bs : List Nat) : String :=
  String.mk (bs.foldr (fun b acc => hexChar (b / 16) :: hexChar (b % 16) :: acc) [])

/-- Byte encoding of a string, modelling Python str.encode for the ASCII
strings that flow through noby.py. -/
def strBytes (s : String) : List Nat := s.data.map Char.toNat

/-! String helpers.  The Python string operations used by noby.py are
re-implemented over the character list of a string, so that every
definition evaluates by kernel reduction. -/

def lowerC (c : Char) : Char :=
  if 65 ≤ c.toNat ∧ c.toNat ≤ 90 then Char.ofNat (c.toNat + 32) else c

def lowerS (s : String) : String := String.mk (s.data.map lowerC)

def endsS (s t : String) : Bool := t.data.isSuffixOf s.data

def startsS (s t : String) : Bool := t.data.isPrefixOf s.data

def takeS (s : String) (n : Nat) : String := String.mk (s.data.take n)

def dropS (s : String) (n : Nat) : String := String.mk (s.data.drop n)

def splitCharAux (sep : Char) : List Char → List (List Char)
  | [] => [[]]
  | c :: rest =>
      match splitCharAux sep rest with
      | w :: ws => if c = sep then [] :: w :: ws else (c :: w) :: ws
      | [] => []

/-- Python str.split with a one-character separator, keeping empty pieces. -/
def splitChar (sep : Char) (s : String) : List String :=
  (splitCharAux sep s.data).map String.mk

/-- Models shlex.split for the quote-free, space-separated argument strings
noby.py passes to it: whitespace-separated tokens, empty tokens dropped. -/
def shlexSplit (s : String) : List String :=
  (splitCharAux ' ' s.data).filter (fun w => w ≠ []) |>.map String.mk

/-- The single-quote character, used by the Python repr of a list of
strings. -/
def squote : String := String.singleton (Char.ofNat 39)

/-- Python str of a list of strings, as produced by format applied to the
cp argument list in the COPY branch of build. -/
def pyStrList (xs : List String) : String :=
  "[" ++ String.intercalate ", " (xs.map (fun s => squote ++ s ++ squote)) ++ "]"

/-! DockerfileParser (noby.py lines 17-84).  A parsed logical line is a
pair of the command word and the argument string, exactly what
the line parser hands to populate_vars. -/

structure Df where
  fromImage : String
  buildCommands : List (String × String)
  env : List (String × String)
deriving DecidableEq

/-- populate_env (noby.py lines 27-29): split on the first equals sign,
join the rest back.  The environment dictionary is an association list
with in-place overwrite, matching Python dict assignment. -/
def setA (m : List (String × String)) (k v : String) : List (String × String) :=
  match m with
  | [] => [(k, v)]
  | (k0, v0) :: rest => if k0 = k then (k, v) :: rest else (k0, v0) :: setA rest k v

def populateEnv (env : List (String × String)) (rawenv : String) : List (String × String) :=
  match splitChar (Char.ofNat 61) rawenv with
  | [] => env
  | name :: value => setA env name (String.intercalate "=" value)

/-- populate_vars (noby.py lines 31-42). -/
def populateVars (st : Df) (cmd args : String) : Df :=
  if cmd = "" then st
  else if lowerS cmd = "env" then { st with env := populateEnv st.env args }
  else if lowerS cmd = "host" ∨ lowerS cmd = "run" ∨ lowerS cmd = "copy" then
    { st with buildCommands := st.buildCommands ++ [(lowerS cmd, args)] }
  else if lowerS cmd = "from" then { st with fromImage := args }
  else st

/-- The parser state after feeding every parsed line to populate_vars.
The unset from_image (Python None) is modelled as the empty string. -/
def parseDf (lines : List (String × String)) : Df :=
  lines.foldl (fun st p => populateVars st p.1 p.2) ⟨"", [], []⟩

/-! calc_build_hashes (noby.py lines 77-84).  The hashlib sha256 object is
modelled observationally: its state is the list of bytes absorbed so far,
and hexdigest is SHA-256 of that list, hex encoded. -/

def calcLoop (ctx : List Nat) : List (String × String) → List String
  | [] => []
  | (c, a) :: rest =>
      let ctx2 := ctx ++ strBytes c ++ strBytes a
      bytesToHex (sha256 ctx2) :: calcLoop ctx2 rest

def calc_build_hashes (parent_hash : String) (build_commands : List (String × String)) :
    List String :=
  calcLoop (if parent_hash = "" then [] else strBytes parent_hash) build_commands

/-- The bytes a single build command contributes to the rolling digest. -/
def stepBytes (p : String × String) : List Nat := strBytes p.1 ++ strBytes p.2

/-- The full byte stream the rolling digest has absorbed when the hash of
step i is taken: the parent hash bytes followed by the kind and argument
bytes of steps 0..i. -/
def streamUpTo (parent : String) (cmds : List (String × String)) (i : Nat) : List Nat :=
  strBytes parent ++ ((cmds.take (i + 1)).map stepBytes).flatten

/-- Modelled from the spec (section 3, Step Hash): the per-step rehash
chain the spec describes, with hash 0 the digest of the parent hash and
each later hash the digest of the previous hex digest followed by kind,
argument and, for COPY steps, the big-endian 4-byte maximum source
modification time.  This definition follows the spec words and is compared
against calc_build_hashes, which follows the source. -/
def specExtra (mtimeOf : String → Nat) (c a : String) : List Nat :=
  if c = "copy" then u32be (mtimeOf a) else []

def specChainLoop (mtimeOf : String → Nat) (prev : String) :
    List (String × String) → List String
  | [] => []
  | (c, a) :: rest =>
      let h := bytesToHex (sha256 (strBytes prev ++ strBytes c ++ strBytes a ++
        specExtra mtimeOf c a))
      h :: specChainLoop mtimeOf h rest

def specChainHashes (mtimeOf : String → Nat) (parent_hash : String)
    (cmds : List (String × String)) : List String :=
  specChainLoop mtimeOf (bytesToHex (sha256 (strBytes parent_hash))) cmds

/-- newest_file (noby.py lines 155-164).  Filesystem traversal is an
oracle: filesOf lists the files found under a source path, mtimeOf gives a
file's modification time.  This helper is defined in the source but no
code in noby.py ever calls it. -/
def newest_file (filesOf : String → List String) (mtimeOf : String → Nat)
    (cmdargs : String) : Nat :=
  let srcs := (shlexSplit cmdargs).dropLast
  List.foldl
    (fun m src =>
      List.foldl (fun m2 f => if mtimeOf f > m2 then mtimeOf f else m2) m (filesOf src))
    0 srcs

/-! The volume store.  The runtime directory is an association list from
entry name to entry: a btrfs subvolume with its user extended attributes,
a readonly flag and the set of directory paths inside it, or a symbolic
link holding the name of its target volume.  External btrfs and xattr
invocations become pure store transformations plus trace events. -/

structure Volume where
  attrs : List (String × String)
  readonly : Bool
  dirs : List String
deriving DecidableEq

inductive Entry where
  | vol (v : Volume)
  | link (target : String)
deriving DecidableEq

abbrev Store := List (String × Entry)

def lookupA : List (String × String) → String → Option String
  | [], _ => none
  | (k, v) :: rest, key => if k = key then some v else lookupA rest key

def removeA (m : List (String × String)) (k : String) : List (String × String) :=
  match m with
  | [] => []
  | (k0, v0) :: rest => if k0 = k then removeA rest k else (k0, v0) :: removeA rest k

def lookupE : Store → String → Option Entry
  | [], _ => none
  | (k, e) :: rest, key => if k = key then some e else lookupE rest key

def setE (s : Store) (k : String) (e : Entry) : Store :=
  match s with
  | [] => [(k, e)]
  | (k0, e0) :: rest => if k0 = k then (k, e) :: rest else (k0, e0) :: setE rest k e

def removeE (s : Store) (k : String) : Store :=
  match s with
  | [] => []
  | (k0, e0) :: rest => if k0 = k then removeE rest k else (k0, e0) :: removeE rest k

/-- Path.exists on a runtime entry. -/
def entryExists (s : Store) (n : String) : Bool := (lookupE s n).isSome

def getVol (s : Store) (n : String) : Option Volume :=
  match lookupE s n with
  | some (Entry.vol v) => some v
  | _ => none

/-- btrfs subvolume create: a fresh writable volume with no user
attributes; its root (the empty relative path) is a directory. -/
def subvolCreate (s : Store) (n : String) : Store :=
  setE s n (Entry.vol ⟨[], false, [""]⟩)

/-- btrfs subvolume delete. -/
def subvolDelete (s : Store) (n : String) : Store := removeE s n

/-- btrfs subvolume snapshot: a copy-on-write clone preserving attributes
and contents, readonly when requested.  Missing sources are guarded by
existence checks at every call site in build. -/
def subvolSnapshot (s : Store) (src dest : String) (ro : Bool) : Store :=
  match getVol s src with
  | some v => setE s dest (Entry.vol { v with readonly := ro })
  | none => s

/-- os.getxattr wrapped in try/except with a default, as in the cache
check of build (noby.py lines 221-225). -/
def getxattrD (s : Store) (n key dflt : String) : String :=
  match getVol s n with
  | some v =>
      match lookupA v.attrs key with
      | some val => val
      | none => dflt
  | none => dflt

def setxattrS (s : Store) (n key val : String) : Store :=
  match getVol s n with
  | some v => setE s n (Entry.vol { v with attrs := setA v.attrs key val })
  | none => s

/-- os.removexattr with the exception swallowed (noby.py lines 272-276). -/
def removexattrS (s : Store) (n key : String) : Store :=
  match getVol s n with
  | some v => setE s n (Entry.vol { v with attrs := removeA v.attrs key })
  | none => s

/-- The OSError that os.readlink raises on a path that exists but is not
a symbolic link; no caller of find_last_build_by_name catches it. -/
inductive FsErr where
  | osError
deriving DecidableEq

deriving instance DecidableEq for Except

/-- ImageStorage.find_last_build_by_name (noby.py lines 117-130): follow
the tag pointer, requiring the target to exist and not to be a working
volume.  Path.exists follows the symbolic link, so a missing entry and a
link with a missing target both return absent; an entry that exists but
is not a symbolic link makes os.readlink raise OSError, which propagates
out of the function uncaught. -/
def find_last_build_by_name (s : Store) (name : String) :
    Except FsErr (Option String) :=
  match lookupE s ("tag-" ++ name) with
  | none => Except.ok none
  | some (Entry.vol _) => Except.error FsErr.osError
  | some (Entry.link target) =>
      if entryExists s target then
        if endsS target "-init" then Except.ok none else Except.ok (some target)
      else Except.ok none

/-! The build orchestrator (noby.py lines 167-301), as a pure function
returning the transformed store, the trace of prints and external effects
in program order, and the exception that aborted the build, if any.
Backend subprocess invocations (host shell, systemd-nspawn, cp) are
recorded as events; their effect on volume file contents is outside the
model. -/

inductive Ev where
  | printNothingToDo
  | printUsingParent (h16 : String)
  | printAlreadyBuilt (h16 : String)
  | printBuildingStep (i total : Nat) (h16 : String)
  | printParentChanged
  | printUsingCached
  | printDeletingIncomplete
  | printHost (args : String)
  | printRun (args : String)
  | printCopy (args : String)
  | printCleanup
  | printRemoveIntermediate (h16 : String)
  | printSuccess (h16 : String)
  | printTagged (h16 : String) (tag : String)
  | subvolCreate (path : String)
  | subvolDelete (path : String)
  | subvolSnapshot (src dest : String) (ro : Bool)
  | execHost (cmdargs : String)
  | execRun (cmdargs : String)
  | execCp (argv : List String)
  | setxattr (path key val : String)
  | removexattr (path key : String)
  | symlink (target lnk : String)
  | rename (src dest : String)
  | unlink (path : String)
deriving DecidableEq

inductive BuildErr where
  | fileNotFound (msg : String)
  | notADirectory (msg : String)
  | unpackError
  | osError
deriving DecidableEq

structure BuildArgs where
  noCache : Bool
  rm : Bool
  tag : Option String
deriving DecidableEq

def pathJoin (a b : String) : String := if b = "" then a else a ++ "/" ++ b

/-- Path.is_dir for a path inside a volume of the store. -/
def isDirIn (s : Store) (volName rel : String) : Bool :=
  match getVol s volName with
  | some v => v.dirs.contains rel
  | none => false

/-- The execution backend dispatch (noby.py lines 244-268).  Returns the
trace of the branch and the value of the Python variable cmd after the
branch: the COPY branch rebinds cmd to the cp argument list, so its string
rendering is the Python str of that list. -/
def execStep (rt : String) (s : Store) (c a target : String) :
    Except (List Ev × BuildErr) (List Ev × String) :=
  if c = "host" then Except.ok ([Ev.printHost a, Ev.execHost a], "host")
  else if c = "run" then Except.ok ([Ev.printRun a, Ev.execRun a], "run")
  else if c = "copy" then
    match (shlexSplit a).reverse with
    | [] => Except.error ([Ev.printCopy a], BuildErr.unpackError)
    | dest0 :: srcsRev =>
        let srcs := srcsRev.reverse
        let destRel := if startsS dest0 "/" then dropS dest0 1 else dest0
        let destAbs := pathJoin (pathJoin rt target) destRel
        if 1 < srcs.length ∧ isDirIn s target destRel = false then
          Except.error ([Ev.printCopy a],
            BuildErr.notADirectory "Destination must be a directory")
        else
          Except.ok ([Ev.printCopy a, Ev.execCp (["cp", "-rv"] ++ srcs ++ [destAbs])],
            pyStrList (["cp", "-rv"] ++ srcs ++ [destAbs]))
  else Except.ok ([], c)

/-- The sealing writes (noby.py lines 270-280): parent_hash, removal of
the two stale command attributes, the command attribute keyed by the
current value of cmd, then the readonly snapshot and the deletion of the
working volume. -/
def sealSteps (s : Store) (target h parent fmt a : String) : Store :=
  let s3 := setxattrS s target "user.parent_hash" parent
  let s4 := removexattrS s3 target "user.cmd.host"
  let s5 := removexattrS s4 target "user.cmd.run"
  let s6 := setxattrS s5 target ("user.cmd." ++ fmt) a
  let s7 := subvolSnapshot s6 target h true
  subvolDelete s7 target

def sealEvents (target h parent fmt a : String) : List Ev :=
  [Ev.setxattr target "user.parent_hash" parent,
   Ev.removexattr target "user.cmd.host",
   Ev.removexattr target "user.cmd.run",
   Ev.setxattr target ("user.cmd." ++ fmt) a,
   Ev.subvolSnapshot target h true,
   Ev.subvolDelete target]

structure StepRes where
  store : Store
  events : List Ev
  err : Option BuildErr
  parent : String
deriving DecidableEq

/-- The WORKING, EXECUTING and SEALING phases of one step (noby.py lines
234-282), entered after the cache check fell through. -/
def runAndSeal (rt : String) (store : Store) (parent c a h : String) : StepRes :=
  let target := h ++ "-init"
  let p1 :=
    if entryExists store target then
      (subvolDelete store target, [Ev.printDeletingIncomplete, Ev.subvolDelete target])
    else (store, [])
  let p2 :=
    if parent ≠ "" then
      (subvolSnapshot p1.1 parent target false, [Ev.subvolSnapshot parent target false])
    else (subvolCreate p1.1 target, [Ev.subvolCreate target])
  match execStep rt p2.1 c a target with
  | Except.error pe =>
      ⟨p2.1, p1.2 ++ p2.2 ++ pe.1, some pe.2, parent⟩
  | Except.ok pf =>
      ⟨sealSteps p2.1 target h parent pf.2 a,
       p1.2 ++ p2.2 ++ pf.1 ++ sealEvents target h parent pf.2 a, none, h⟩

/-- One step of the build loop (noby.py lines 203-282): the cache check,
then either a cache hit or the rebuild path. -/
def buildStep (rt : String) (noCache : Bool) (store : Store) (parent c a h : String)
    (i total : Nat) : StepRes :=
  let ev0 := [Ev.printBuildingStep (i + 1) total (takeS h 16)]
  let cc :=
    if entryExists store h then
      if noCache then (subvolDelete store h, [Ev.subvolDelete h], false)
      else
        let prev := getxattrD store h "user.parent_hash" ""
        if parent ≠ "" ∧ parent ≠ prev then
          (subvolDelete store h, [Ev.printParentChanged, Ev.subvolDelete h], false)
        else (store, [Ev.printUsingCached], true)
    else (store, [], false)
  if cc.2.2 then ⟨cc.1, ev0 ++ cc.2.1, none, h⟩
  else
    let r := runAndSeal rt cc.1 parent c a h
    ⟨r.store, ev0 ++ cc.2.1 ++ r.events, r.err, r.parent⟩

def buildLoop (rt : String) (noCache : Bool) (total : Nat) :
    Store → String → Nat → List ((String × String) × String) → StepRes
  | store, parent, _, [] => ⟨store, [], none, parent⟩
  | store, parent, i, ((c, a), h) :: rest =>
      let r := buildStep rt noCache store parent c a h i total
      match r.err with
      | some e => ⟨r.store, r.events, some e, r.parent⟩
      | none =>
          let r2 := buildLoop rt noCache total r.store r.parent (i + 1) rest
          ⟨r2.store, r.events ++ r2.events, r2.err, r2.parent⟩

/-- The post-build removal of intermediate images (noby.py lines 285-291). -/
def cleanupLoop : Store → List String → Store × List Ev
  | s, [] => (s, [])
  | s, hh :: rest =>
      if entryExists s hh then
        let r := cleanupLoop (subvolDelete s hh) rest
        (r.1, Ev.printRemoveIntermediate (takeS hh 16) :: Ev.subvolDelete hh :: r.2)
      else cleanupLoop s rest

/-- Base-image resolution (noby.py lines 184-190): scratch means the empty
root parent; anything else must resolve through the tag pointer to an
existing sealed image, a falsy result raises FileNotFoundError, and an
OSError escaping find_last_build_by_name propagates unchanged. -/
def locateParent (store : Store) (fromImage : String) :
    Except BuildErr (String × List Ev) :=
  if fromImage = "scratch" then Except.ok ("", [])
  else
    match find_last_build_by_name store fromImage with
    | Except.error _ => Except.error BuildErr.osError
    | Except.ok none =>
        Except.error (BuildErr.fileNotFound
          ("Image with name " ++ fromImage ++ " not found"))
    | Except.ok (some p) =>
        if p = "" then
          Except.error (BuildErr.fileNotFound
            ("Image with name " ++ fromImage ++ " not found"))
        else Except.ok (p, [Ev.printUsingParent (takeS p 16)])

structure BuildResult where
  store : Store
  events : List Ev
  err : Option BuildErr
deriving DecidableEq

/-- build (noby.py lines 167-301).  The runtime directory prefix rt only
feeds the absolute path strings handed to cp.  Tag publication models the
write-temporary-then-atomic-rename sequence of lines 295-301. -/
def build (rt : String) (store : Store) (args : BuildArgs) (df : Df) : BuildResult :=
  if df.buildCommands = [] then ⟨store, [Ev.printNothingToDo], none⟩
  else
    match locateParent store df.fromImage with
    | Except.error e => ⟨store, [], some e⟩
    | Except.ok (parent0, evP) =>
        let hashes := calc_build_hashes parent0 df.buildCommands
        let lastH := hashes.getLastD ""
        if !args.noCache && args.rm && entryExists store lastH then
          ⟨store, evP ++ [Ev.printAlreadyBuilt (takeS lastH 16)], none⟩
        else
          let total := df.buildCommands.length
          let r := buildLoop rt args.noCache total store parent0 0
            (df.buildCommands.zip hashes)
          match r.err with
          | some e => ⟨r.store, evP ++ r.events, some e⟩
          | none =>
              let p2 :=
                if args.rm then
                  let cl := cleanupLoop r.store hashes.dropLast
                  (cl.1, Ev.printCleanup :: cl.2)
                else (r.store, [])
              let e3 := [Ev.printSuccess (takeS r.parent 16)]
              match args.tag with
              | none => ⟨p2.1, evP ++ r.events ++ p2.2 ++ e3, none⟩
              | some t =>
                  let tmp := "tag-" ++ t ++ "-tmp"
                  let p4 :=
                    if entryExists p2.1 tmp then (removeE p2.1 tmp, [Ev.unlink tmp])
                    else (p2.1, [])
                  let s5 := setE (removeE (setE p4.1 tmp (Entry.link r.parent)) tmp)
                    ("tag-" ++ t) (Entry.link r.parent)
                  ⟨s5,
                   evP ++ r.events ++ p2.2 ++ e3 ++ p4.2 ++
                     [Ev.symlink r.parent tmp, Ev.rename tmp ("tag-" ++ t),
                      Ev.printTagged (takeS r.parent 16) t],
                   none⟩

/-- A digest's value as a base-256 numeral, little endian. -/
def bytesToNat : List Nat → Nat
  | [] => 0
  | b :: rest => b + 256 * bytesToNat rest

/-- The argument string of n letters a, giving infinitely many distinct
single-step chains. -/
def repArg (m : Nat) : String := String.mk (List.replicate m 'a')

/-- The C5 claim as the spec words it: an argument change at step i leaves
hashes before i unchanged and changes the hash of step i and of every
later step. -/
def ClaimC5 : Prop :=
  ∀ (p : String) (pre suf : List (String × String)) (c a1 a2 : String),
    a1 ≠ a2 →
    (∀ j, j < pre.length →
      (calc_build_hashes p (pre ++ (c, a1) :: suf))[j]? =
        (calc_build_hashes p (pre ++ (c, a2) :: suf))[j]?) ∧
    (∀ j, pre.length ≤ j → j < (pre ++ (c, a1) :: suf).length →
      (calc_build_hashes p (pre ++ (c, a1) :: suf))[j]? ≠
        (calc_build_hashes p (pre ++ (c, a2) :: suf))[j]?)

/-- The C3 claim as the spec words it: whenever the sealed target exists
with caching enabled and its recorded parent_hash differs from the
resolved parent hash, the step deletes the stale volume and rebuilds, for
every value of the expected parent including the empty root parent. -/
def ClaimC3 : Prop :=
  ∀ (rt : String) (store : Store) (parent c a h : String) (i total : Nat),
    entryExists store h = true →
    getxattrD store h "user.parent_hash" "" ≠ parent →
    Ev.printUsingCached ∉ (buildStep rt false store parent c a h i total).events ∧
      Ev.subvolDelete h ∈ (buildStep rt false store parent c a h i total).events

/-- The chain hash of the single step (run, x) built from scratch. -/
def hashRunX : String :=
  "8186b7035bea2f66ebe27c1f5cf7de4e94ef935e259a2f3160352adffc752f28"

/-- The chain hash of the single step (copy, a b) built from scratch. -/
def hashCopyAB : String :=
  "e78796be51228e054fd72a7c8ed333476df65a4fc6990c315bc6c460583c46f9"

/-- The attribute key sealing actually writes for the COPY step (copy, a b)
under runtime prefix /rt: the Python str of the cp argument list. -/
def cpArgvKey : String :=
  "user.cmd." ++ pyStrList ["cp", "-rv", "a", pathJoin (pathJoin "/rt" (hashCopyAB ++ "-init")) "b"]

/-- Concrete store for the c4_sealing witness: a working volume carrying a
stale cmd.copy attribute inherited from its ancestor. -/
def c4wVol : Volume := ⟨[("user.cmd.copy", "old")], false, [""]⟩

def c4wStore : Store := [("t", Entry.vol c4wVol)]

/-- Concrete store for the c3 witness. -/
def c3wStore : Store := [("h1", Entry.vol ⟨[("user.parent_hash", "junk")], true, [""]⟩)]

/-- The C6 claim as the spec words it: tag resolution always comes back
with either absent or the name of a sealed volume, for every store. -/
def ClaimC6 : Prop :=
  ∀ (s : Store) (n : String),
    find_last_build_by_name s n = Except.ok none ∨
      ∃ v, find_last_build_by_name s n = Except.ok (some v)

/-- Concrete store for the c6 counterexample: the tag path exists but is
a plain volume directory, not a symbolic link. -/
def c6wStore : Store := [("tag-x", Entry.vol ⟨[], true, [""]⟩)]

/-- Concrete store for the c7 witness: the working volume exists but has
no directory z. -/
def c7wStore : Store := [("t", Entry.vol ⟨[], false, [""]⟩)]

/-- Concrete store for the c8 witness: the final hash of the one-step run
recipe is already sealed. -/
def c8wStore : Store := [(hashRunX, Entry.vol ⟨[("user.parent_hash", "")], true, [""]⟩)]

/-- Concrete store for the c9 witness: a sealed volume and its leftover
working twin. -/
def c9wStore : Store :=
  [("h1", Entry.vol ⟨[("user.parent_hash", "")], true, [""]⟩),
   ("h1-init", Entry.vol ⟨[], false, [""]⟩)]

/-! Sanity checks of the embedding on concrete values. -/

example : bytesToHex (sha256 []) =
    "e3b0c44298fc1c149afbf4c8996fb92427ae41e4649b934ca495991b7852b855" := by decide

example : bytesToHex (sha256 (strBytes "abc")) =
    "ba7816bf8f01cfea414140de5dae2223b00361a396177a9cb410ff61f20015ad" := by decide

example : calc_build_hashes "ab" [("run", "x")] =
    ["52af42b548ef3886a62e588617cbc6e2c4721dda5dc3ebd14f4446abbd5a4e98"] := by decide

example : specChainHashes (fun _ => 0) "ab" [("run", "x")] =
    ["c96795fd8d1bcf1435384069117c0e4dfcd056d1f12da0f9e54f1cbc977a3452"] := by decide

example : shlexSplit "a  b c" = ["a", "b", "c"] := by decide

example : (parseDf [("FROM", "scratch"), ("ENV", "bla=bla"), ("#", "x"),
    ("HOST", "echo"), ("COPY", "bla bla"), ("RUN", "bla")]).env = [("bla", "bla")] := by decide

example : (parseDf [("FROM", "scratch"), ("RUN", "bla")]).buildCommands =
    [("run", "bla")] := by decide

/-! Helper lemmas about the hash chain. -/

theorem strBytes_empty : strBytes "" = [] := rfl

theorem calc_seed (p : String) : (if p = "" then [] else strBytes p) = strBytes p := by
  split
  · subst ‹p = ""›
    rfl
  · rfl

theorem calcLoop_get :
    ∀ (cmds : List (String × String)) (ctx : List Nat) (i : Nat), i < cmds.length →
      (calcLoop ctx cmds)[i]? =
        some (bytesToHex (sha256 (ctx ++ ((cmds.take (i + 1)).map stepBytes).flatten)))
  | [], _, i, h => absurd h (by simp)
  | (c, a) :: rest, ctx, 0, _ => by
      simp [calcLoop, stepBytes, List.append_assoc]
  | (c, a) :: rest, ctx, i + 1, h => by
      have ih := calcLoop_get rest (ctx ++ strBytes c ++ strBytes a) i (by simpa using h)
      simp only [calcLoop, List.getElem?_cons_succ]
      simpa [List.take_succ_cons, stepBytes, List.append_assoc] using ih

theorem calc_build_hashes_get (p : String) (cmds : List (String × String)) (i : Nat)
    (h : i < cmds.length) :
    (calc_build_hashes p cmds)[i]? = some (bytesToHex (sha256 (streamUpTo p cmds i))) := by
  unfold calc_build_hashes streamUpTo
  rw [calc_seed]
  exact calcLoop_get cmds (strBytes p) i h

theorem calcLoop_length : ∀ (cmds : List (String × String)) (ctx : List Nat),
    (calcLoop ctx cmds).length = cmds.length
  | [], _ => rfl
  | (c, a) :: rest, ctx => by
      simp [calcLoop, calcLoop_length rest]

theorem calc_build_hashes_length (p : String) (cmds : List (String × String)) :
    (calc_build_hashes p cmds).length = cmds.length := by
  unfold calc_build_hashes
  exact calcLoop_length cmds _

/-- The C1 claim, stated the way the spec words it, fails on the code: the
source keeps one rolling digest across steps instead of rehashing the
previous hex digest, and folds in no COPY extra.  At parent "ab" and the
single step (run, x) the two chains produce different hex digests. -/
theorem c1_counterexample :
    calc_build_hashes "ab" [("run", "x")] ≠
      specChainHashes (fun _ => 0) "ab" [("run", "x")] := by decide

/-- C1, amended: the hash of step i is the hex digest of a single rolling
SHA-256 that has absorbed the parent hash bytes followed by the kind and
argument bytes of steps 0..i, with no per-step rehash of the previous
digest and no extra data for COPY steps. -/
theorem c1_rolling_chain (p : String) (cmds : List (String × String)) (i : Nat)
    (h : i < cmds.length) :
    (calc_build_hashes p cmds)[i]? = some (bytesToHex (sha256 (streamUpTo p cmds i))) :=
  calc_build_hashes_get p cmds i h

/-- Witness for c1_rolling_chain at a concrete chain. -/
theorem c1_rolling_chain_witness :
    0 < ([("run", "x")] : List (String × String)).length ∧
      (calc_build_hashes "ab" [("run", "x")])[0]? =
        some (bytesToHex (sha256 (streamUpTo "ab" [("run", "x")] 0))) :=
  ⟨by decide, c1_rolling_chain "ab" [("run", "x")] 0 (by decide)⟩

/-- C2: the build hash chain never consults source modification times:
calc_build_hashes takes no freshness input at all (newest_file is defined
in the source but never called), so rebuilding the same COPY recipe always
reuses the cached sealed volume, no matter how the sources change on disk.
Evaluated at the failing input, a one-step COPY recipe built twice: the
second build is a cache hit and leaves the store untouched. -/
theorem c2_mtime_never_consulted :
    (build "/rt" (build "/rt" [] ⟨false, false, none⟩
        ⟨"scratch", [("copy", "a b")], []⟩).store ⟨false, false, none⟩
        ⟨"scratch", [("copy", "a b")], []⟩).store =
      (build "/rt" [] ⟨false, false, none⟩ ⟨"scratch", [("copy", "a b")], []⟩).store ∧
    (build "/rt" (build "/rt" [] ⟨false, false, none⟩
        ⟨"scratch", [("copy", "a b")], []⟩).store ⟨false, false, none⟩
        ⟨"scratch", [("copy", "a b")], []⟩).err = none ∧
    Ev.printUsingCached ∈
      (build "/rt" (build "/rt" [] ⟨false, false, none⟩
        ⟨"scratch", [("copy", "a b")], []⟩).store ⟨false, false, none⟩
        ⟨"scratch", [("copy", "a b")], []⟩).events := by decide

/-! Chain-propagation analysis for the rolling hash. -/

theorem charToNat_inj : Function.Injective Char.toNat := by
  intro c d h
  apply Char.ext
  exact UInt32.ext (by simpa [Char.toNat] using h)

theorem strBytes_inj : Function.Injective strBytes := by
  intro a b h
  apply String.ext
  exact List.map_injective_iff.mpr charToNat_inj h

theorem u32be_lt (x : Nat) : ∀ b ∈ u32be x, b < 256 := by
  intro b hb
  simp only [u32be, List.mem_cons, List.not_mem_nil, or_false] at hb
  rcases hb with rfl | rfl | rfl | rfl <;> exact Nat.mod_lt _ (by decide)

theorem sha256_length (m : List Nat) : (sha256 m).length = 32 := by
  simp [sha256, stateBytes, u32be]

theorem stateBytes_lt (st : H8) : ∀ b ∈ stateBytes st, b < 256 := by
  intro b hb
  simp only [stateBytes, List.mem_append] at hb
  rcases hb with ((((((h | h) | h) | h) | h) | h) | h) | h <;> exact u32be_lt _ _ h

theorem sha256_lt (m : List Nat) : ∀ b ∈ sha256 m, b < 256 :=
  stateBytes_lt (processBlocks ((padBytes m).length / 64 + 1) initH (padBytes m))

theorem bytesToNat_lt : ∀ (l : List Nat), (∀ b ∈ l, b < 256) →
    bytesToNat l < 256 ^ l.length
  | [], _ => by simp [bytesToNat]
  | b :: rest, h => by
      have hb : b < 256 := h b (by simp)
      have ih := bytesToNat_lt rest (fun x hx => h x (by simp [hx]))
      simp only [bytesToNat, List.length_cons, pow_succ]
      calc b + 256 * bytesToNat rest < 256 * (bytesToNat rest + 1) := by omega
        _ ≤ 256 * 256 ^ rest.length := Nat.mul_le_mul_left _ ih
        _ = 256 ^ rest.length * 256 := by ring

theorem bytesToNat_inj : ∀ (l1 l2 : List Nat), l1.length = l2.length →
    (∀ b ∈ l1, b < 256) → (∀ b ∈ l2, b < 256) →
    bytesToNat l1 = bytesToNat l2 → l1 = l2
  | [], [], _, _, _, _ => rfl
  | [], _ :: _, h, _, _, _ => by simp at h
  | _ :: _, [], h, _, _, _ => by simp at h
  | b1 :: r1, b2 :: r2, hlen, h1, h2, heq => by
      have hb1 : b1 < 256 := h1 b1 (by simp)
      have hb2 : b2 < 256 := h2 b2 (by simp)
      simp only [bytesToNat] at heq
      have hb : b1 = b2 ∧ bytesToNat r1 = bytesToNat r2 := by omega
      have ih := bytesToNat_inj r1 r2 (by simpa using hlen)
        (fun x hx => h1 x (by simp [hx])) (fun x hx => h2 x (by simp [hx])) hb.2
      simp [hb.1, ih]

theorem repArg_inj : Function.Injective repArg := by
  intro m n h
  have h2 : (repArg m).data.length = (repArg n).data.length := by rw [h]
  simpa [repArg] using h2

theorem strBytes_repArg (m : Nat) : strBytes (repArg m) = List.replicate m 97 := by
  simp [strBytes, repArg, List.map_replicate]

/-- C5 as stated is false for SHA-256 by counting: the 256-bit digest
space is finite while the argument space is not, so two one-step chains
with different arguments share their first hash.  The collision is
obtained nonconstructively; no concrete one is known. -/
theorem c5_counterexample : ¬ ClaimC5 := by
  intro hc
  have hmaps : Set.MapsTo (fun n => bytesToNat (sha256 (strBytes "run" ++ List.replicate n 97)))
      Set.univ (Set.Iio (256 ^ 32)) := by
    intro n _
    have h1 := bytesToNat_lt (sha256 (strBytes "run" ++ List.replicate n 97)) (sha256_lt _)
    rw [sha256_length] at h1
    simpa [Set.mem_Iio] using h1
  obtain ⟨m, -, n, -, hmn, hfeq⟩ :=
    Set.infinite_univ.exists_ne_map_eq_of_mapsTo hmaps (Set.finite_Iio _)
  have hsha : sha256 (strBytes "run" ++ List.replicate m 97) =
      sha256 (strBytes "run" ++ List.replicate n 97) :=
    bytesToNat_inj _ _ (by rw [sha256_length, sha256_length]) (sha256_lt _) (sha256_lt _) hfeq
  have harg : repArg m ≠ repArg n := fun h => hmn (repArg_inj h)
  have h2 := (hc "" [] [] "run" (repArg m) (repArg n) harg).2 0 (by simp) (by simp)
  apply h2
  rw [calc_build_hashes_get _ _ 0 (by simp), calc_build_hashes_get _ _ 0 (by simp)]
  simp only [streamUpTo, stepBytes, strBytes_empty, strBytes_repArg, List.take_succ_cons,
    List.take_nil, List.map_cons, List.map_nil, List.flatten_cons, List.flatten_nil,
    List.nil_append, List.append_nil]
  rw [hsha]

/-- C5, amended: hashes of the steps before i agree, and from step i on
the byte streams absorbed by the rolling digest differ, so the hashes of
step i and of every later step differ unless SHA-256 collides on two
explicitly different inputs. -/
theorem c5_chain_propagation (p : String) (pre suf : List (String × String))
    (c a1 a2 : String) (hne : a1 ≠ a2) :
    (∀ j, j < pre.length →
      (calc_build_hashes p (pre ++ (c, a1) :: suf))[j]? =
        (calc_build_hashes p (pre ++ (c, a2) :: suf))[j]?) ∧
    (∀ j, pre.length ≤ j → j < (pre ++ (c, a1) :: suf).length →
      streamUpTo p (pre ++ (c, a1) :: suf) j ≠ streamUpTo p (pre ++ (c, a2) :: suf) j) := by
  constructor
  · intro j hj
    have hl1 : j < (pre ++ (c, a1) :: suf).length := by simp; omega
    have hl2 : j < (pre ++ (c, a2) :: suf).length := by simp; omega
    rw [calc_build_hashes_get _ _ j hl1, calc_build_hashes_get _ _ j hl2]
    have ht : j + 1 ≤ pre.length := hj
    rw [streamUpTo, streamUpTo, List.take_append_of_le_length ht,
      List.take_append_of_le_length ht]
  · intro j hj _ heq
    have hkey : j + 1 - pre.length = (j - pre.length) + 1 := by omega
    have hpre : pre.length ≤ j + 1 := by omega
    rw [streamUpTo, streamUpTo, List.take_append_eq_append_take,
      List.take_append_eq_append_take, List.take_of_length_le hpre, hkey,
      List.take_succ_cons, List.take_succ_cons] at heq
    simp only [List.map_append, List.map_cons, List.flatten_append, List.flatten_cons,
      stepBytes, List.append_assoc] at heq
    have h1 := List.append_cancel_left heq
    have h2 := List.append_cancel_left h1
    have h3 := List.append_cancel_left h2
    exact hne (strBytes_inj (List.append_cancel_right h3))

/-- Witness for c5_chain_propagation at a concrete pair of chains. -/
theorem c5_chain_propagation_witness :
    (("x" : String) ≠ "y") ∧
      ((∀ j, j < ([] : List (String × String)).length →
        (calc_build_hashes "" ([] ++ ("run", "x") :: []))[j]? =
          (calc_build_hashes "" ([] ++ ("run", "y") :: []))[j]?) ∧
       (∀ j, ([] : List (String × String)).length ≤ j →
          j < ([] ++ ("run", "x") :: []).length →
        streamUpTo "" ([] ++ ("run", "x") :: []) j ≠
          streamUpTo "" ([] ++ ("run", "y") :: []) j)) :=
  ⟨by decide, c5_chain_propagation "" [] [] "run" "x" "y" (by decide)⟩

/-! Association-list lemmas for attributes and store entries. -/

theorem lookupA_setA_self (m : List (String × String)) (k v : String) :
    lookupA (setA m k v) k = some v := by
  induction m with
  | nil => simp [setA, lookupA]
  | cons p rest ih =>
      by_cases h : p.1 = k
      · simp [setA, h, lookupA]
      · simp [setA, h, lookupA, ih]

theorem lookupA_setA_ne (m : List (String × String)) (v : String) {k k2 : String}
    (h : k2 ≠ k) : lookupA (setA m k v) k2 = lookupA m k2 := by
  induction m with
  | nil => simp [setA, lookupA, Ne.symm h]
  | cons p rest ih =>
      by_cases h2 : p.1 = k
      · simp [setA, h2, lookupA, Ne.symm h, h]
      · simp [setA, h2, lookupA, ih]

theorem lookupA_removeA_self (m : List (String × String)) (k : String) :
    lookupA (removeA m k) k = none := by
  induction m with
  | nil => simp [removeA, lookupA]
  | cons p rest ih =>
      by_cases h : p.1 = k
      · simp [removeA, h, ih]
      · simp [removeA, h, lookupA, ih]

theorem lookupA_removeA_ne (m : List (String × String)) {k k2 : String} (h : k2 ≠ k) :
    lookupA (removeA m k) k2 = lookupA m k2 := by
  induction m with
  | nil => simp [removeA, lookupA]
  | cons p rest ih =>
      by_cases h2 : p.1 = k
      · simp [removeA, h2, lookupA, Ne.symm h, ih]
      · simp [removeA, h2, lookupA, ih]

theorem lookupE_setE_self (s : Store) (n : String) (e : Entry) :
    lookupE (setE s n e) n = some e := by
  induction s with
  | nil => simp [setE, lookupE]
  | cons p rest ih =>
      by_cases h : p.1 = n
      · simp [setE, h, lookupE]
      · simp [setE, h, lookupE, ih]

theorem lookupE_setE_ne (s : Store) (e : Entry) {n n2 : String} (h : n2 ≠ n) :
    lookupE (setE s n e) n2 = lookupE s n2 := by
  induction s with
  | nil => simp [setE, lookupE, Ne.symm h]
  | cons p rest ih =>
      by_cases h2 : p.1 = n
      · simp [setE, h2, lookupE, Ne.symm h, h]
      · simp [setE, h2, lookupE, ih]

theorem lookupE_removeE_self (s : Store) (n : String) :
    lookupE (removeE s n) n = none := by
  induction s with
  | nil => simp [removeE, lookupE]
  | cons p rest ih =>
      by_cases h : p.1 = n
      · simp [removeE, h, ih]
      · simp [removeE, h, lookupE, ih]

theorem lookupE_removeE_ne (s : Store) {n n2 : String} (h : n2 ≠ n) :
    lookupE (removeE s n) n2 = lookupE s n2 := by
  induction s with
  | nil => simp [removeE, lookupE]
  | cons p rest ih =>
      by_cases h2 : p.1 = n
      · simp [removeE, h2, lookupE, Ne.symm h, ih]
      · simp [removeE, h2, lookupE, ih]

theorem getVol_setE_self (s : Store) (n : String) (v : Volume) :
    getVol (setE s n (Entry.vol v)) n = some v := by
  simp [getVol, lookupE_setE_self]

theorem find_ok_some_iff (s : Store) (n v : String) :
    find_last_build_by_name s n = Except.ok (some v) ↔
      lookupE s ("tag-" ++ n) = some (Entry.link v) ∧ entryExists s v = true ∧
        endsS v "-init" = false := by
  unfold find_last_build_by_name
  cases he : lookupE s ("tag-" ++ n) with
  | none => simp
  | some e =>
      cases e with
      | vol _ => simp
      | link t =>
          by_cases h1 : entryExists s t
          · by_cases h2 : endsS t "-init"
            · simp only [h1, h2, if_true]
              constructor
              · intro hx
                cases hx
              · rintro ⟨hl, -, hend⟩
                cases hl
                rw [h2] at hend
                cases hend
            · simp only [h1, h2, if_true, if_false]
              constructor
              · intro hx
                cases hx
                exact ⟨rfl, h1, Bool.not_eq_true _ |>.mp h2⟩
              · rintro ⟨hl, -, -⟩
                cases hl
                rfl
          · simp only [h1, if_false]
            constructor
            · intro hx
              cases hx
            · rintro ⟨hl, hv2, -⟩
              cases hl
              exact absurd hv2 h1

theorem find_error_iff (s : Store) (n : String) :
    find_last_build_by_name s n = Except.error FsErr.osError ↔
      ∃ w, lookupE s ("tag-" ++ n) = some (Entry.vol w) := by
  unfold find_last_build_by_name
  cases he : lookupE s ("tag-" ++ n) with
  | none => simp
  | some e =>
      cases e with
      | vol w => simp
      | link t =>
          by_cases h1 : entryExists s t
          · by_cases h2 : endsS t "-init" <;> simp [h1, h2]
          · simp [h1]

theorem find_ok_none_iff (s : Store) (n : String) :
    find_last_build_by_name s n = Except.ok none ↔
      lookupE s ("tag-" ++ n) = none ∨
        ∃ t, lookupE s ("tag-" ++ n) = some (Entry.link t) ∧
          (entryExists s t = false ∨ endsS t "-init" = true) := by
  unfold find_last_build_by_name
  cases he : lookupE s ("tag-" ++ n) with
  | none => simp
  | some e =>
      cases e with
      | vol w => simp
      | link t =>
          by_cases h1 : entryExists s t
          · by_cases h2 : endsS t "-init" <;> simp [h1, h2]
          · simp [h1]

/-- C6 as stated is false on the code: when the tag path exists but is
not a symbolic link, Path.exists is true and os.readlink raises an
uncaught OSError, so resolution neither returns absent nor a volume
name. -/
theorem c6_counterexample : ¬ ClaimC6 := by
  intro hc
  have he : find_last_build_by_name c6wStore "x" = Except.error FsErr.osError := by decide
  rcases hc c6wStore "x" with h | ⟨v, h⟩ <;> rw [he] at h <;> cases h

/-- C6, amended: when the tag pointer entry is a symbolic link, resolution
returns the target name exactly for an existing target not ending in
-init, and absent for a missing pointer, a dangling target or an -init
target; it never returns a working volume.  When the tag path exists but
is not a symbolic link, os.readlink raises an uncaught OSError instead of
returning absent. -/
theorem c6_tag_resolution (s : Store) (n v : String) :
    (find_last_build_by_name s n = Except.ok (some v) ↔
      lookupE s ("tag-" ++ n) = some (Entry.link v) ∧ entryExists s v = true ∧
        endsS v "-init" = false) ∧
    (find_last_build_by_name s n = Except.error FsErr.osError ↔
      ∃ w, lookupE s ("tag-" ++ n) = some (Entry.vol w)) ∧
    (find_last_build_by_name s n = Except.ok none ↔
      lookupE s ("tag-" ++ n) = none ∨
        ∃ t, lookupE s ("tag-" ++ n) = some (Entry.link t) ∧
          (entryExists s t = false ∨ endsS t "-init" = true)) :=
  ⟨find_ok_some_iff s n v, find_error_iff s n, find_ok_none_iff s n⟩

/-- The attribute map a sealed volume ends up with (noby.py lines
271-277): the freshly written key wins, the two removed keys are gone
unless rewritten, parent_hash is set, and every other key is untouched. -/
theorem seal_attrs_lookup (A : List (String × String)) (parent fmt a k : String) :
    lookupA (setA (removeA (removeA (setA A "user.parent_hash" parent) "user.cmd.host")
        "user.cmd.run") ("user.cmd." ++ fmt) a) k =
      if k = "user.cmd." ++ fmt then some a
      else if k = "user.cmd.run" then none
      else if k = "user.cmd.host" then none
      else if k = "user.parent_hash" then some parent
      else lookupA A k := by
  by_cases h1 : k = "user.cmd." ++ fmt
  · subst h1
    simp [lookupA_setA_self]
  · rw [lookupA_setA_ne _ _ h1, if_neg h1]
    by_cases h2 : k = "user.cmd.run"
    · subst h2
      simp [lookupA_removeA_self]
    · rw [lookupA_removeA_ne _ h2, if_neg h2]
      by_cases h3 : k = "user.cmd.host"
      · subst h3
        simp [lookupA_removeA_self]
      · rw [lookupA_removeA_ne _ h3, if_neg h3]
        by_cases h4 : k = "user.parent_hash"
        · subst h4
          simp [lookupA_setA_self]
        · rw [lookupA_setA_ne _ _ h4, if_neg h4]

/-- C4, amended: sealing writes parent_hash and the attribute keyed by the
final value of the Python cmd variable, removes only the stale cmd.host
and cmd.run keys, then takes the readonly snapshot and deletes the working
volume.  Any other inherited attribute, a stale cmd.copy included,
survives into the sealed volume. -/
theorem c4_sealing (s : Store) (v : Volume) (target h parent fmt a : String)
    (hv : getVol s target = some v) (hth : target ≠ h) :
    ∃ v2, getVol (sealSteps s target h parent fmt a) h = some v2 ∧
      v2.readonly = true ∧ v2.dirs = v.dirs ∧
      (∀ k, lookupA v2.attrs k =
        if k = "user.cmd." ++ fmt then some a
        else if k = "user.cmd.run" then none
        else if k = "user.cmd.host" then none
        else if k = "user.parent_hash" then some parent
        else lookupA v.attrs k) ∧
      lookupE (sealSteps s target h parent fmt a) target = none := by
  unfold sealSteps setxattrS removexattrS subvolSnapshot subvolDelete
  rw [hv]
  simp only [getVol_setE_self]
  refine ⟨⟨setA (removeA (removeA (setA v.attrs "user.parent_hash" parent) "user.cmd.host")
      "user.cmd.run") ("user.cmd." ++ fmt) a, true, v.dirs⟩, ?_, rfl, rfl,
    fun k => seal_attrs_lookup v.attrs parent fmt a k, ?_⟩
  · rw [getVol, lookupE_removeE_ne _ (Ne.symm hth), lookupE_setE_self]
  · exact lookupE_removeE_self _ _

/-- C4 as stated fails at a concrete one-step COPY build from scratch: the
sealed volume carries no cmd.copy attribute at all; the attribute the code
writes is keyed by the Python str of the rebound cmd list. -/
theorem c4_counterexample :
    (getVol (build "/rt" [] ⟨false, false, none⟩
        ⟨"scratch", [("copy", "a b")], []⟩).store hashCopyAB).map
      (fun v => lookupA v.attrs "user.cmd.copy") = some none ∧
    (getVol (build "/rt" [] ⟨false, false, none⟩
        ⟨"scratch", [("copy", "a b")], []⟩).store hashCopyAB).map
      (fun v => lookupA v.attrs cpArgvKey) = some (some "a b") := by decide

/-- Witness for c4_sealing at a concrete run step sealed over a volume
with a stale cmd.copy attribute. -/
theorem c4_sealing_witness :
    getVol c4wStore "t" = some c4wVol ∧ (("t" : String) ≠ "f") ∧
      (∃ v2, getVol (sealSteps c4wStore "t" "f" "p" "run" "x") "f" = some v2 ∧
        v2.readonly = true ∧ v2.dirs = c4wVol.dirs ∧
        (∀ k, lookupA v2.attrs k =
          if k = "user.cmd." ++ "run" then some "x"
          else if k = "user.cmd.run" then none
          else if k = "user.cmd.host" then none
          else if k = "user.parent_hash" then some "p"
          else lookupA c4wVol.attrs k) ∧
        lookupE (sealSteps c4wStore "t" "f" "p" "run" "x") "t" = none) :=
  ⟨by decide, by decide, c4_sealing c4wStore c4wVol "t" "f" "p" "run" "x" (by decide) (by decide)⟩

/-- C3 as stated is false: with the empty root parent expected, a cached
volume recording the unrelated parent hash junk is still taken as a cache
hit and never deleted, because the mismatch test is guarded by the parent
hash being nonempty. -/
theorem c3_counterexample : ¬ ClaimC3 := by
  intro hc
  have h2 := hc "/rt" [("h1", Entry.vol ⟨[("user.parent_hash", "junk")], true, [""]⟩)]
    "" "run" "x" "h1" 0 1 (by decide) (by decide)
  exact h2.1 (by decide)

/-- C3, amended: when the expected parent hash is nonempty and differs
from the recorded parent_hash attribute, the step deletes the stale sealed
volume and falls through to the rebuild path. -/
theorem c3_stale_parent_evicted (rt : String) (store : Store) (parent c a h : String)
    (i total : Nat) (hex2 : entryExists store h = true) (hp : parent ≠ "")
    (hmis : parent ≠ getxattrD store h "user.parent_hash" "") :
    buildStep rt false store parent c a h i total =
      ⟨(runAndSeal rt (subvolDelete store h) parent c a h).store,
       Ev.printBuildingStep (i + 1) total (takeS h 16) :: Ev.printParentChanged ::
         Ev.subvolDelete h :: (runAndSeal rt (subvolDelete store h) parent c a h).events,
       (runAndSeal rt (subvolDelete store h) parent c a h).err,
       (runAndSeal rt (subvolDelete store h) parent c a h).parent⟩ := by
  unfold buildStep
  simp [hex2, hp, hmis]

/-- Witness for c3_stale_parent_evicted at a concrete stale cache entry. -/
theorem c3_stale_parent_evicted_witness :
    entryExists c3wStore "h1" = true ∧ (("p" : String) ≠ "") ∧
      (("p" : String) ≠ getxattrD c3wStore "h1" "user.parent_hash" "") ∧
      buildStep "/rt" false c3wStore "p" "run" "x" "h1" 0 1 =
        ⟨(runAndSeal "/rt" (subvolDelete c3wStore "h1") "p" "run" "x" "h1").store,
         Ev.printBuildingStep 1 1 (takeS "h1" 16) :: Ev.printParentChanged ::
           Ev.subvolDelete "h1" ::
             (runAndSeal "/rt" (subvolDelete c3wStore "h1") "p" "run" "x" "h1").events,
         (runAndSeal "/rt" (subvolDelete c3wStore "h1") "p" "run" "x" "h1").err,
         (runAndSeal "/rt" (subvolDelete c3wStore "h1") "p" "run" "x" "h1").parent⟩ :=
  ⟨by decide, by decide, by decide,
    c3_stale_parent_evicted "/rt" c3wStore "p" "run" "x" "h1" 0 1
      (by decide) (by decide) (by decide)⟩

/-- C7: a COPY step with more than one source whose resolved destination
is not an existing directory fails with the not-a-directory error before
the cp command is recorded: the branch returns only the COPY print. -/
theorem c7_multi_source_needs_dir (rt : String) (s : Store) (a target dest0 : String)
    (srcsRev : List String) (hsplit : (shlexSplit a).reverse = dest0 :: srcsRev)
    (hlen : 1 < srcsRev.length)
    (hdir : isDirIn s target (if startsS dest0 "/" then dropS dest0 1 else dest0) = false) :
    execStep rt s "copy" a target =
      Except.error ([Ev.printCopy a],
        BuildErr.notADirectory "Destination must be a directory") := by
  unfold execStep
  rw [hsplit]
  simp [List.length_reverse, hlen, hdir]

/-- Witness for c7_multi_source_needs_dir on the argument string x y z. -/
theorem c7_multi_source_needs_dir_witness :
    (shlexSplit "x y z").reverse = "z" :: ["y", "x"] ∧
      1 < (["y", "x"] : List String).length ∧
      isDirIn c7wStore "t" (if startsS "z" "/" then dropS "z" 1 else "z") = false ∧
      execStep "/rt" c7wStore "copy" "x y z" "t" =
        Except.error ([Ev.printCopy "x y z"],
          BuildErr.notADirectory "Destination must be a directory") :=
  ⟨by decide, by decide, by decide,
    c7_multi_source_needs_dir "/rt" c7wStore "x y z" "t" "z" ["y", "x"]
      (by decide) (by decide) (by decide)⟩

/-- C8: with caching on and intermediate removal on, if the sealed volume
of the final step hash already exists, build returns right after the
already-built notice: the store is returned unchanged and no volume or tag
operation is traced, whatever tag was requested. -/
theorem c8_short_circuit (rt : String) (store : Store) (tag : Option String) (df : Df)
    (parent0 : String) (evP : List Ev) (hcmds : df.buildCommands ≠ [])
    (hloc : locateParent store df.fromImage = Except.ok (parent0, evP))
    (hex2 : entryExists store
      ((calc_build_hashes parent0 df.buildCommands).getLastD "") = true) :
    build rt store ⟨false, true, tag⟩ df =
      ⟨store, evP ++ [Ev.printAlreadyBuilt
        (takeS ((calc_build_hashes parent0 df.buildCommands).getLastD "") 16)], none⟩ := by
  unfold build
  simp [hcmds, hloc, hex2, -List.getLastD_eq_getLast?]

/-- Witness for c8_short_circuit on the one-step run recipe from scratch,
with a tag requested. -/
theorem c8_short_circuit_witness :
    (⟨"scratch", [("run", "x")], []⟩ : Df).buildCommands ≠ [] ∧
      locateParent c8wStore "scratch" = Except.ok ("", []) ∧
      entryExists c8wStore
        ((calc_build_hashes "" [("run", "x")]).getLastD "") = true ∧
      build "/rt" c8wStore ⟨false, true, some "t"⟩ ⟨"scratch", [("run", "x")], []⟩ =
        ⟨c8wStore, [] ++ [Ev.printAlreadyBuilt
          (takeS ((calc_build_hashes "" [("run", "x")]).getLastD "") 16)], none⟩ :=
  ⟨by decide, by decide, by decide,
    c8_short_circuit "/rt" c8wStore (some "t") ⟨"scratch", [("run", "x")], []⟩ "" []
      (by decide) (by decide) (by decide)⟩

/-- C9: on a cache hit the whole step leaves the store untouched, so a
leftover working volume named hash-init survives: the deletion of stray
working volumes sits on the rebuild path only. -/
theorem c9_cache_hit_keeps_stray (rt : String) (store : Store) (parent c a h : String)
    (i total : Nat) (hex2 : entryExists store h = true)
    (hhit : ¬(parent ≠ "" ∧ parent ≠ getxattrD store h "user.parent_hash" ""))
    (hinit : entryExists store (h ++ "-init") = true) :
    buildStep rt false store parent c a h i total =
      ⟨store, [Ev.printBuildingStep (i + 1) total (takeS h 16), Ev.printUsingCached],
        none, h⟩ ∧
    entryExists (buildStep rt false store parent c a h i total).store
      (h ++ "-init") = true := by
  have heq : buildStep rt false store parent c a h i total =
      ⟨store, [Ev.printBuildingStep (i + 1) total (takeS h 16), Ev.printUsingCached],
        none, h⟩ := by
    unfold buildStep
    simp [hex2, hhit]
  exact ⟨heq, by rw [heq]; exact hinit⟩

/-- Witness for c9_cache_hit_keeps_stray at a root cache hit with a stray
working volume present. -/
theorem c9_cache_hit_keeps_stray_witness :
    entryExists c9wStore "h1" = true ∧
      ¬((("" : String) ≠ "") ∧ ("" : String) ≠ getxattrD c9wStore "h1" "user.parent_hash" "") ∧
      entryExists c9wStore ("h1" ++ "-init") = true ∧
      (buildStep "/rt" false c9wStore "" "run" "x" "h1" 0 1 =
        ⟨c9wStore, [Ev.printBuildingStep 1 1 (takeS "h1" 16), Ev.printUsingCached],
          none, "h1"⟩ ∧
       entryExists (buildStep "/rt" false c9wStore "" "run" "x" "h1" 0 1).store
         ("h1" ++ "-init") = true) :=
  ⟨by decide, by decide, by decide,
    c9_cache_hit_keeps_stray "/rt" c9wStore "" "run" "x" "h1" 0 1
      (by decide) (by decide) (by decide)⟩

/-- A parsed line whose lowered command word is none of host, run, copy
never adds a build command. -/
theorem populateVars_no_step (st : Df) (c0 a0 : String)
    (h1 : lowerS c0 ≠ "host") (h2 : lowerS c0 ≠ "run") (h3 : lowerS c0 ≠ "copy") :
    (populateVars st c0 a0).buildCommands = st.buildCommands := by
  unfold populateVars
  split_ifs with hc he hs hf
  · rfl
  · rfl
  · exact absurd hs (by simp [h1, h2, h3])
  · rfl
  · rfl

theorem parse_no_steps : ∀ (lines : List (String × String)) (st : Df),
    (∀ p ∈ lines, lowerS p.1 ≠ "host" ∧ lowerS p.1 ≠ "run" ∧ lowerS p.1 ≠ "copy") →
    (List.foldl (fun st2 p => populateVars st2 p.1 p.2) st lines).buildCommands =
      st.buildCommands
  | [], _, _ => rfl
  | (c0, a0) :: rest, st, h => by
      have hh := h (c0, a0) (by simp)
      have ih := parse_no_steps rest (populateVars st c0 a0) (fun p hp => h p (by simp [hp]))
      rw [List.foldl_cons, ih, populateVars_no_step st c0 a0 hh.1 hh.2.1 hh.2.2]

/-- C10: a recipe whose parsed lines contain no HOST, RUN or COPY step
makes build print the nothing-to-do notice and return with the store
untouched and no error, before any base-image resolution or hashing. -/
theorem c10_no_steps_noop (rt : String) (store : Store) (args : BuildArgs)
    (lines : List (String × String))
    (h : ∀ p ∈ lines, lowerS p.1 ≠ "host" ∧ lowerS p.1 ≠ "run" ∧ lowerS p.1 ≠ "copy") :
    build rt store args (parseDf lines) = ⟨store, [Ev.printNothingToDo], none⟩ := by
  have hb : (parseDf lines).buildCommands = [] := parse_no_steps lines ⟨"", [], []⟩ h
  unfold build
  rw [if_pos hb]

/-- Witness for c10_no_steps_noop on a recipe of only FROM, ENV and
comment lines, with an unresolvable base image and a tag requested. -/
theorem c10_no_steps_noop_witness :
    (∀ p ∈ [("FROM", "missing"), ("ENV", "a=b"), ("#", "note")],
      lowerS (Prod.fst p) ≠ "host" ∧ lowerS (Prod.fst p) ≠ "run" ∧
        lowerS (Prod.fst p) ≠ "copy") ∧
      build "/rt" [] ⟨true, true, some "t"⟩
          (parseDf [("FROM", "missing"), ("ENV", "a=b"), ("#", "note")]) =
        ⟨[], [Ev.printNothingToDo], none⟩ :=
  ⟨by decide, c10_no_steps_noop "/rt" [] ⟨true, true, some "t"⟩
    [("FROM", "missing"), ("ENV", "a=b"), ("#", "note")] (by decide)⟩

end Noby
